import Mathlib

/-!
# Verification of the jarvis-ml-kit request middleware

A shallow embedding of the request-processing middleware of the
`jarvis-ml-kit` HTTP classification service, together with proofs about it.
The embedded code comes from:

* `library/utilities.py` — `schemaCheck`;
* `library/schemas.py` — the `NSFW_DETECTION_CLASSIFY` schema;
* `library/security.py` — `APISecurity` (auth gate and key store),
  `RateLimiter`, `RouteValidator`;
* `apis/nsfw_detection.py` — the `classify` view (staging, hashing,
  result cache, classifier invocation, cleanup).

External collaborators (base64, PIL/imagehash, VideoHash, ffmpeg, NudeNet,
pymongo) are modelled as pure oracles; a raised Python exception is an
`Except.error`.  Machine time (`time.time()`) is a rational number passed
explicitly to each operation.
-/

namespace JarvisMLKit

/-- A JSON scalar as it appears in a request body: a string, a number, or
null.  (Request bodies of this service only carry scalars.) -/
inductive JVal where
  | str (s : String)
  | num (q : ℚ)
  | nullv
deriving DecidableEq

/-- A parsed JSON request body: a Python dict, i.e. an association list with
(at most) one entry per key. -/
abbrev Body := List (String × JVal)

/-- Python `data[k]` as an option: the first entry for key `k`. -/
def lookupField (body : Body) (k : String) : Option JVal :=
  (body.find? (fun p => p.1 == k)).map (·.2)

/-- The effect of `data.pop(k, None)` on the dict: all entries for `k` are
gone (a Python dict has at most one). -/
def popField (body : Body) (k : String) : Body :=
  body.filter (fun p => p.1 != k)

/-! ## Schema validation (`library/utilities.py`, `library/schemas.py`) -/

/-- One field of a `schema.Schema({...})` dict: its name, whether it is
wrapped in `Optional`, and the validator applied to its value. -/
structure SchemaField where
  name : String
  optional : Bool
  coerce : JVal → Bool

/-- The validator `And(Use(str))`: `str(x)` succeeds on every JSON scalar,
so it accepts every value. -/
def useStr : JVal → Bool := fun _ => true

/-- The `NSFW_DETECTION_CLASSIFY` schema of `library/schemas.py`:
`bytes` and `contentType` required, `ratelimitKey` optional, each validated
by `And(Use(str))`. -/
def NSFW_DETECTION_CLASSIFY : List SchemaField :=
  [⟨"bytes", false, useStr⟩, ⟨"contentType", false, useStr⟩,
   ⟨"ratelimitKey", true, useStr⟩]

/-- Embeds `schemaCheck(schema, dict_)` from `library/utilities.py`:
`schema.validate(dict_)` with the `schema` library's default
`ignore_extra_keys=False`, its `SchemaError` turned into `False`.  The
validation succeeds iff every body key is a declared field whose validator
accepts the value, and every non-`Optional` field is present. -/
def schemaCheck (shape : List SchemaField) (body : Body) : Bool :=
  body.all (fun p => shape.any (fun f => f.name == p.1 && f.coerce p.2)) &&
  shape.all (fun f => f.optional || body.any (fun p => p.1 == f.name))

/-! ## The key store (`APISecurity` in `library/security.py`) -/

/-- One document of the `db.keys` collection, as `generateKey` inserts it.
`created` is written but never read back. -/
structure KeyRecord where
  key : String
  active : Bool
  created : ℚ
deriving DecidableEq

/-- The state of `APISecurity`: the backing `db.keys` collection, the cached
documents `self.keys`, the time of the last cache refresh
(`self.lastRefresh`, `None` at start) and the configured `refreshRate`
(default `5.0` seconds). -/
structure SecurityState where
  db : List KeyRecord
  keys : List KeyRecord
  lastRefresh : Option ℚ
  refreshRate : ℚ
deriving DecidableEq

/-- The state `APISecurity.__init__` builds over a backing collection. -/
def initSecurity (db : List KeyRecord) (rate : ℚ) : SecurityState :=
  ⟨db, [], none, rate⟩

/-- Embeds `generateKey`: inserts `{"key": key, "active": True, "created": now}`.
The random output of `generateId` is passed in as `k`. -/
def generateKey (s : SecurityState) (k : String) (now : ℚ) : SecurityState :=
  { s with db := s.db ++ [⟨k, true, now⟩] }

/-- Embeds `update_one` setting `active` to `True` — the literal written in
the source — on the first matching document. -/
def setActiveTrueFirst : List KeyRecord → String → List KeyRecord
  | [], _ => []
  | r :: rs, k =>
      if r.key == k then { r with active := true } :: rs
      else r :: setActiveTrueFirst rs k

/-- Embeds `revokeKey`: raises `ValueError` when no active document matches,
otherwise runs the `update_one` above (which re-sets `active` to `True`). -/
def revokeKey (s : SecurityState) (k : String) : Except String SecurityState :=
  if s.db.countP (fun r => r.key == k && r.active) = 0 then
    .error (k ++ " not found")
  else
    .ok { s with db := setActiveTrueFirst s.db k }

/-- Embeds `refreshKeys`: leave the cache alone unless the previous refresh is at
least `refreshRate` seconds old (or never happened); a refresh loads every
`active` document and records the refresh time. -/
def refreshKeys (s : SecurityState) (now : ℚ) : SecurityState :=
  match s.lastRefresh with
  | some last =>
      if ¬ (now - last ≥ s.refreshRate) then s
      else { s with keys := s.db.filter (·.active), lastRefresh := some now }
  | none => { s with keys := s.db.filter (·.active), lastRefresh := some now }

/-- Embeds `validateKey`: refresh (rate-limited), then true iff some
cached document carries the key. -/
def validateKey (s : SecurityState) (k : String) (now : ℚ) :
    Bool × SecurityState :=
  let s' := refreshKeys s now
  (s'.keys.any (fun r => r.key == k), s')

/-! ### Traces of key-store operations

`generateKey`, `revokeKey` and `validateKey` interleave across requests; a
trace pairs each operation with the `time.time()` at which it runs. -/

/-- One key-store operation of a trace. -/
inductive SecEvent where
  | gen (k : String)
  | revoke (k : String)
  | validate (k : String)
deriving DecidableEq

/-- Run one event.  A failed revocation (`ValueError`) aborts only its own
request and leaves the state unchanged. -/
def secStep (s : SecurityState) (e : SecEvent × ℚ) : SecurityState :=
  match e with
  | (.gen k, t) => generateKey s k t
  | (.revoke k, _) =>
      match revokeKey s k with
      | .ok s' => s'
      | .error _ => s
  | (.validate k, t) => (validateKey s k t).2

/-- Run a trace of key-store operations in order. -/
def secRun (s : SecurityState) (evs : List (SecEvent × ℚ)) : SecurityState :=
  evs.foldl secStep s

/-! ## The rate limiter (`RateLimiter` in `library/security.py`) -/

/-- The map `self.requests`: limiting key → `lastRequestAt`.  Limiting keys are JSON
values read from the request body (or the remote address as a string). -/
abbrev RateMap := List (JVal × ℚ)

/-- Embeds `self.requests.get(key_)`. -/
def lookupReq (m : RateMap) (k : JVal) : Option ℚ :=
  (m.find? (fun p => p.1 == k)).map (·.2)

/-- Dict assignment `self.requests[key_] = time.time()`. -/
def setReq (m : RateMap) (k : JVal) (t : ℚ) : RateMap :=
  (k, t) :: m.filter (fun p => p.1 != k)

/-- One pass through the wrapper built by `RateLimiter.limit(count)`, after
the limiting key has been derived: read the previous timestamp, record `now`
unconditionally, and reject (`false`) iff a previous timestamp existed, is
truthy (`if prevRequest:` — a stored `0.0` counts as absent) and is less
than `1 / count` seconds old.  `true` means the wrapped handler runs;
`false` means `makeResponse(status=429, msg="rate limit in place")`. -/
def limitStep (count : ℚ) (m : RateMap) (k : JVal) (now : ℚ) :
    Bool × RateMap :=
  let prev := lookupReq m k
  let m' := setReq m k now
  match prev with
  | some p => if p ≠ 0 ∧ now - p < 1 / count then (false, m') else (true, m')
  | none => (true, m')

/-- Run a list of `(limiting key, arrival time)` requests through the
wrapper; the first component lists, in order, whether each request reached
the wrapped handler. -/
def limitRun (count : ℚ) (m : RateMap) :
    List (JVal × ℚ) → List Bool × RateMap
  | [] => ([], m)
  | (k, t) :: rest =>
      let (b, m') := limitStep count m k t
      let (bs, m'') := limitRun count m' rest
      (b :: bs, m'')

/-! ## The classify view (`apis/nsfw_detection.py`) -/

/-- Raw media bytes. -/
abbrev MBytes := List Nat

/-- The temporary area on disk: newest write first; a path is present iff
some entry carries it. -/
abbrev FS := List (String × MBytes)

/-- Write a file (`tmp.write`, or ffmpeg's output). -/
def fsWrite (fs : FS) (p : String) (b : MBytes) : FS := (p, b) :: fs

/-- Does a path exist on disk? -/
def fsExists (fs : FS) (p : String) : Bool := fs.any (fun e => e.1 == p)

/-- Embeds `os.unlink`. -/
def fsUnlink (fs : FS) (p : String) : FS := fs.filter (fun e => e.1 != p)

/-- A classifier prediction value seen through Python's `float()`: either it
coerces to a rational, or `float()` raises with the given message. -/
inductive CoVal where
  | coercible (q : ℚ)
  | nonCoercible (msg : String)
deriving DecidableEq

/-- Embeds Python `float(v)`. -/
def pyFloat : CoVal → Except String ℚ
  | .coercible q => .ok q
  | .nonCoercible m => .error m

/-- The `preds` mapping of a `classify_video` result: per-frame entries
`(frame key, v["safe"], v["unsafe"])` in dict order. -/
abbrev VidPreds := List (Nat × CoVal × CoVal)

/-- Raw output of `nudenet.classify` / `classify_video`: an opaque image
prediction, or a dict carrying a `preds` key for video. -/
inductive ClsRaw where
  | img (raw : String)
  | vid (preds : VidPreds)
deriving DecidableEq

/-- The `data` field of a stored/returned result: the raw classifier output,
or the per-segment predictions after the coercion loop. -/
inductive ClsData where
  | raw (r : ClsRaw)
  | vidNorm (preds : List (String × ℚ × ℚ))
deriving DecidableEq

/-- One document of `db.classified_nsfw`, which is also the successful
response payload: the `results` dict of `classify`, without the `_id` that
pymongo adds and the view pops. -/
structure ClsDoc where
  data : ClsData
  path : String
  contentType : String
  hash : String
deriving DecidableEq

/-- An HTTP response as `fluxhelper.flask.makeResponse` builds it. -/
structure Response where
  status : Nat
  msg : Option String
  data : Option ClsDoc
deriving DecidableEq

/-- Embeds `makeResponse(data=d)`. -/
def makeResponseData (d : ClsDoc) : Response := ⟨200, none, some d⟩

/-- Embeds `makeResponse(status=s, msg=m)`. -/
def makeResponseErr (s : Nat) (m : String) : Response := ⟨s, some m, none⟩

/-- The normalisation loop of `classify` over the `preds` mapping, which
rebuilds every entry by applying `float()` to its two values.  The first
`float()` that cannot coerce raises out of the loop. -/
def normalizePreds : VidPreds → Except String (List (String × ℚ × ℚ))
  | [] => .ok []
  | (k, sv, uv) :: rest => do
      let s ← pyFloat sv
      let u ← pyFloat uv
      let tail ← normalizePreds rest
      return (toString k, s, u) :: tail

/-- Modelled from the spec: "per-frame/per-segment predictions are coerced
into a mapping of segment-key → {safe: float, unsafe: float}, discarding any
non-float-coercible values".  Stated from the spec's words, for comparison
with `normalizePreds` (the code's loop). -/
def normalizePredsSpec (ps : VidPreds) : List (String × ℚ × ℚ) :=
  ps.filterMap (fun e =>
    match e with
    | (k, .coercible s, .coercible u) => some (toString k, s, u)
    | _ => none)

/-- The external collaborators of `classify`, as pure oracles applied to
file contents: base64 decoding, the two perceptual hashes
(`imagehash.average_hash` over `Image.open`, and `VideoHash(...).hash_hex`),
the ffmpeg GIF→MP4 transcode, and the two NudeNet entry points.
`Except.error` stands for a raised exception. -/
structure ClassifyEnv where
  b64decode : String → MBytes
  imageHash : MBytes → Except String String
  videoHash : MBytes → Except String String
  transcode : MBytes → Except String MBytes
  classifyImg : MBytes → Except String ClsRaw
  classifyVid : MBytes → Except String ClsRaw

/-- Python `str.lower()` on the ASCII content-type strings involved: a
per-character map. -/
def pyLower (s : String) : String := ⟨s.data.map Char.toLower⟩

/-- Python `str.startswith`, as a character-list test. -/
def startsWithS (s pre : String) : Bool := pre.data.isPrefixOf s.data

/-- The suffix table for video content types, with the `.mp4` fallback. -/
def videoSuffixTable : List (String × String) :=
  [("video/x-msvideo", ".avi"), ("video/mp4", ".mp4"), ("video/mpeg", ".mpeg"),
   ("video/ogg", ".ogv"), ("video/mp2t", ".ts"), ("video/webm", ".webm"),
   ("video/x-matroska", ".mkv")]

/-- The temporary-file suffix `classify` chooses from the declared content
type (`None` outside the GIF/video cases). -/
def suffixFor (contentType : String) : Option String :=
  let l := pyLower contentType
  if l = "image/gif" then some ".gif"
  else if startsWithS l "video/" then
    some (((videoSuffixTable.find? (fun e => e.1 == l)).map (·.2)).getD ".mp4")
  else none

/-- Embeds `os.path.basename`: the part after the last `/`. -/
def basename (p : String) : String :=
  ⟨(p.data.reverse.takeWhile (· ≠ '/')).reverse⟩

/-- Python `s[:-4]`: drop the last four characters. -/
def dropLast4 (s : String) : String := ⟨s.data.take (s.data.length - 4)⟩

/-- The transcode target path, `.tmp/` plus the basename with `.gif`
replaced by `.mp4`. -/
def gifMp4Path (p : String) : String :=
  ".tmp/" ++ dropLast4 (basename p) ++ ".mp4"

/-- The hash / cache-check / classify-on-miss phase of `classify`, after
staging: `content` is the final staged file's bytes, `isVid` the `method`
flag, `ct` the (possibly updated) `data["contentType"]`, `origPath` the
original temporary name kept in `results["path"]`.  `Except.error` is the
uncaught exception a failing hash raises; classifier exceptions are caught
by the view's `try`/`except` and become a 500 response.  The last component
records whether `NudeClassifier` was invoked. -/
def hashAndClassify (env : ClassifyEnv) (db : List ClsDoc) (isVid : Bool)
    (ct : String) (content : MBytes) (origPath : String) :
    Except String (Response × List ClsDoc × Bool) :=
  match (if isVid then env.videoHash content else env.imageHash content) with
  | .error e => .error e
  | .ok h =>
    match db.find? (fun d => d.hash == h) with
    | some stored => .ok (makeResponseData stored, db, false)
    | none =>
      match (if isVid then env.classifyVid content else env.classifyImg content) with
      | .error e => .ok (makeResponseErr 500 e, db, true)
      | .ok res =>
        if startsWithS ct "video/" then
          match res with
          | .img _ => .ok (makeResponseErr 500 "preds", db, true)
          | .vid ps =>
            match normalizePreds ps with
            | .error e => .ok (makeResponseErr 500 e, db, true)
            | .ok nps =>
              let doc : ClsDoc := ⟨.vidNorm nps, origPath, ct, h⟩
              .ok (makeResponseData doc, db ++ [doc], true)
        else
          let doc : ClsDoc := ⟨.raw res, origPath, ct, h⟩
          .ok (makeResponseData doc, db ++ [doc], true)

/-- Everything observable after one run of the `classify` view. -/
structure RunResult where
  outcome : Except String Response
  fs : FS
  db : List ClsDoc
  classifierCalled : Bool

/-- What the staging part of the `with` block leaves behind: the disk state,
the final staged file's bytes, the original temporary name
(`results["path"]`), the files the trailing `os.unlink` lines delete, the
`method` flag and the updated `data["contentType"]`. -/
structure StagedMedia where
  fs : FS
  content : MBytes
  origPath : String
  toDelete : List String
  isVid : Bool
  ct : String

/-- The staging part of `classify`: write the decoded bytes to the suffixed
temporary file; for a GIF, run the ffmpeg transcode into
`.tmp/<base>.mp4`, flip `method` to video and the content type to
`"video/mp4"`.  A transcode failure raises (`.error`), leaving the written
GIF on disk. -/
def stage (env : ClassifyEnv) (fs : FS) (bytesField ct tmpBase : String) :
    Except (String × FS) StagedMedia :=
  let b := env.b64decode bytesField
  let suffix := suffixFor ct
  let path0 := tmpBase ++ suffix.getD ""
  let fs1 := fsWrite fs path0 b
  if suffix = some ".gif" then
    match env.transcode b with
    | .error e => .error (e, fs1)
    | .ok out =>
      let path := gifMp4Path path0
      .ok ⟨fsWrite fs1 path out, out, path0, [path0, path], true, "video/mp4"⟩
  else .ok ⟨fs1, b, path0, [path0], startsWithS ct "video/", ct⟩

/-- The cleanup lines: `if oldPath: os.unlink(oldPath)` then
`os.unlink(path)`. -/
def unlinkAll (fs : FS) (ps : List String) : FS := ps.foldl fsUnlink fs

/-- The `classify` view of `apis/nsfw_detection.py`, one request end to end.
`tmpBase` is the unique name `NamedTemporaryFile` picks (the suffix is
appended to it).  The staged file's content is the bytes just written, so
the hash and the classifier are applied to those bytes directly.  The
`os.unlink` cleanup lines sit at the end of the `with` block, NOT in a
`finally`: an exception raised by `ffmpy.FFmpeg.run`, `Image.open` /
`average_hash` or `VideoHash` propagates out of the view (`.error`) without
reaching them; only classifier exceptions are caught (to a 500). -/
def classifyRun (env : ClassifyEnv) (fs : FS) (db : List ClsDoc)
    (bytesField ct tmpBase : String) : RunResult :=
  match stage env fs bytesField ct tmpBase with
  | .error (e, fsLeft) => ⟨.error e, fsLeft, db, false⟩
  | .ok st =>
    match hashAndClassify env db st.isVid st.ct st.content st.origPath with
    | .error e => ⟨.error e, st.fs, db, false⟩
    | .ok (resp, db', called) =>
        ⟨.ok resp, unlinkAll st.fs st.toDelete, db', called⟩

/-! ## The auth gate and the assembled request pipeline -/

/-- Python truthiness of the popped `__key__` value (`if key:`). -/
def jTruthy : JVal → Bool
  | .str s => s ≠ ""
  | .num q => decide (q ≠ 0)
  | .nullv => false

/-- Embeds `validateKey` applied to a raw JSON credential: the cache refresh runs
either way; `x["key"] == key` is false when the credential is not a string,
since stored keys are strings. -/
def validateKeyJ (s : SecurityState) (v : JVal) (now : ℚ) :
    Bool × SecurityState :=
  match v with
  | .str str => validateKey s str now
  | _ => (false, refreshKeys s now)

/-- The `beforeRequest` hook `APISecurity.patch` installs: if the parsed
body is truthy, pop `__key__`; a truthy, valid credential lets the request
proceed (result `none`) with the popped body; everything else produces
`makeResponse(status=401, msg="unauthorized")`. -/
def beforeRequest (sec : SecurityState) (now : ℚ) (body : Option Body) :
    Option Response × Body × SecurityState :=
  match body with
  | none => (some (makeResponseErr 401 "unauthorized"), [], sec)
  | some data =>
    if data.isEmpty then (some (makeResponseErr 401 "unauthorized"), data, sec)
    else
      match lookupField data "__key__" with
      | none => (some (makeResponseErr 401 "unauthorized"), data, sec)
      | some v =>
        let data' := popField data "__key__"
        if jTruthy v then
          let (ok, sec') := validateKeyJ sec v now
          (if ok then none else some (makeResponseErr 401 "unauthorized"),
           data', sec')
        else (some (makeResponseErr 401 "unauthorized"), data', sec)

/-- The limiting key of the `/classify` route: `limit(2, key="ratelimitKey")`
reads `request.json["ratelimitKey"]` and, when that raises `KeyError`, falls
back to `self.getKey()` — the remote address, since the server's
`RateLimiter()` was built without a key function. -/
def deriveLimitKey (body : Body) (remoteAddr : String) : JVal :=
  (lookupField body "ratelimitKey").getD (.str remoteAddr)

/-- The string value a handler reads from a body field (the handler fields
of interest carry strings; any other value is opaque to the claims). -/
def getStrField (body : Body) (k : String) : String :=
  match lookupField body k with
  | some (.str s) => s
  | _ => ""

/-- Everything observable after one request through the patched app. -/
structure PipeResult where
  response : Except String Response
  sec : SecurityState
  lim : RateMap
  fs : FS
  db : List ClsDoc
  limiterRan : Bool
  validatorRan : Bool
  handlerRan : Bool
  classifierCalled : Bool
  bodySeen : Option Body

/-- One request through the app as `app.py` assembles it: the
`before_request` auth gate, then the `/classify` view wrapped by
`limit(2, key="ratelimitKey")` and `validate(NSFW_DETECTION_CLASSIFY)`.
`bodySeen` is the body the view stack (limiter onwards) observes — the
mutated `request.json` — or `none` when the gate short-circuited. -/
def handleRequest (sec : SecurityState) (lim : RateMap) (env : ClassifyEnv)
    (fs : FS) (db : List ClsDoc) (now : ℚ) (body : Option Body)
    (remoteAddr tmpBase : String) : PipeResult :=
  match beforeRequest sec now body with
  | (some r, _, sec') =>
      ⟨.ok r, sec', lim, fs, db, false, false, false, false, none⟩
  | (none, data, sec') =>
    let k := deriveLimitKey data remoteAddr
    let (pass, lim') := limitStep 2 lim k now
    if pass then
      if schemaCheck NSFW_DETECTION_CLASSIFY data then
        let run := classifyRun env fs db (getStrField data "bytes")
          (getStrField data "contentType") tmpBase
        ⟨run.outcome, sec', lim', run.fs, run.db, true, true, true,
         run.classifierCalled, some data⟩
      else
        ⟨.ok (makeResponseErr 400 "incorrectly structured data"), sec', lim',
         fs, db, true, true, false, false, some data⟩
    else
      ⟨.ok (makeResponseErr 429 "rate limit in place"), sec', lim', fs, db,
       true, false, false, false, some data⟩

/-- Does `needle` occur as a contiguous substring of `hay`? -/
def strContains (hay needle : String) : Bool :=
  (List.range (hay.length + 1)).any
    (fun i => needle.data.isPrefixOf (hay.data.drop i))

/-- A concrete environment for runs that never reach the handler. -/
def trivialEnv : ClassifyEnv :=
  ⟨fun _ => [], fun _ => .ok "", fun _ => .ok "", fun b => .ok b,
   fun _ => .ok (.img ""), fun _ => .ok (.vid [])⟩

/-! ## Auxiliary predicates and concrete environments used by the proofs -/

/-- The collection holds an active document for the key. -/
def hasActiveKey (db : List KeyRecord) (k : String) : Bool :=
  db.any (fun r => r.key == k && r.active)

/-- The key is visible in the cached documents. -/
def keyCached (s : SecurityState) (k : String) : Bool :=
  s.keys.any (fun r => r.key == k)

/-- The invariant carried from the generation event onwards: the collection
keeps an active document for `k`, and any cache refreshed strictly after the
generation time `g` shows `k`. -/
def SecInv (g : ℚ) (k : String) (s : SecurityState) : Prop :=
  hasActiveKey s.db k = true ∧
  ∀ L, s.lastRefresh = some L → g < L → keyCached s k = true

/-- The last refresh time never exceeds the times seen so far. -/
def refreshLE (s : SecurityState) (b : ℚ) : Prop :=
  ∀ L, s.lastRefresh = some L → L ≤ b

/-- Both prediction values of an entry coerce through `float()`. -/
def entryCoercible : Nat × CoVal × CoVal → Bool
  | (_, .coercible _, .coercible _) => true
  | _ => false

/-- A concrete environment whose video hash raises, as `VideoHash` does on
bytes ffmpeg produced but the hasher cannot decode. -/
def gifHashFailEnv : ClassifyEnv :=
  ⟨fun _ => [7], fun _ => .ok "h", fun _ => .error "cannot hash",
   fun _ => .ok [9], fun _ => .ok (.img "r"), fun _ => .ok (.vid [])⟩

/-- A concrete environment in which every collaborator succeeds. -/
def demoEnv : ClassifyEnv :=
  ⟨fun _ => [1], fun _ => .ok "h1", fun _ => .ok "h2", fun b => .ok b,
   fun _ => .ok (.img "p"), fun _ => .ok (.vid [])⟩

/-! ## Proofs -/

theorem lookupField_isSome (body : Body) (k : String) :
    (lookupField body k).isSome = body.any (fun p => p.1 == k) := by
  induction body with
  | nil => rfl
  | cons hd tl ih =>
      simp only [lookupField, List.find?, List.any_cons] at ih ⊢
      by_cases h : hd.1 == k
      · simp [h]
      · simp only [h, Bool.false_or]
        simpa [lookupField] using ih

theorem lookupField_mem (body : Body) (k : String) (v : JVal)
    (h : lookupField body k = some v) : (k, v) ∈ body := by
  unfold lookupField at h
  cases hf : body.find? (fun p => p.1 == k) with
  | none => rw [hf] at h; simp at h
  | some p =>
      rw [hf] at h
      simp at h
      have hm := List.mem_of_find?_eq_some hf
      have hp := List.find?_some hf
      have hk : p.1 = k := by simpa using hp
      have hpv : p = (k, v) := by
        cases p with
        | mk a b =>
            simp only at hk h
            rw [hk, h]
      rwa [hpv] at hm

theorem lookupField_popField_ne (body : Body) (j k : String) (h : k ≠ j) :
    lookupField (popField body j) k = lookupField body k := by
  unfold lookupField popField
  rw [List.find?_filter]
  have hp : (fun (a : String × JVal) => decide ((a.1 != j) = true ∧ (a.1 == k) = true))
      = (fun (p : String × JVal) => p.1 == k) := by
    funext a
    by_cases hk : a.1 = k
    · simp [hk, bne_iff_ne, h]
    · simp [hk]
  rw [hp]

theorem mem_popField (body : Body) (j : String) (p : String × JVal)
    (h : p ∈ popField body j) : p ∈ body ∧ p.1 ≠ j := by
  unfold popField at h
  have h1 := List.mem_of_mem_filter h
  have h2 := List.of_mem_filter h
  simp at h2
  exact ⟨h1, h2⟩

theorem schemaCheck_nsfw_iff (body : Body) :
    schemaCheck NSFW_DETECTION_CLASSIFY body = true ↔
      ((lookupField body "bytes").isSome ∧ (lookupField body "contentType").isSome ∧
       ∀ p ∈ body, p.1 = "bytes" ∨ p.1 = "contentType" ∨ p.1 = "ratelimitKey") := by
  simp [schemaCheck, NSFW_DETECTION_CLASSIFY, useStr, List.all_eq_true,
    List.any_eq_true, lookupField_isSome]
  constructor
  · rintro ⟨h1, h2, h3⟩
    exact ⟨h2, h3, fun a b hab => (h1 a b hab).imp Eq.symm (Or.imp Eq.symm Eq.symm)⟩
  · rintro ⟨h2, h3, h1⟩
    exact ⟨fun a b hab => (h1 a b hab).imp Eq.symm (Or.imp Eq.symm Eq.symm), h2, h3⟩


/-- C5: a request with a missing or invalid credential is answered 401
by the gate; the rate limiter, the validator and the handler do not run and
their state is untouched. -/
theorem auth_failure_short_circuits (sec : SecurityState) (lim : RateMap)
    (env : ClassifyEnv) (fs : FS) (db : List ClsDoc) (now : ℚ)
    (body : Option Body) (remoteAddr tmpBase : String)
    (h : body = none ∨ ∃ data, body = some data ∧
        ∀ v, lookupField data "__key__" = some v →
          jTruthy v = false ∨ (validateKeyJ sec v now).1 = false) :
    (handleRequest sec lim env fs db now body remoteAddr tmpBase).response
        = .ok (makeResponseErr 401 "unauthorized") ∧
    (handleRequest sec lim env fs db now body remoteAddr tmpBase).limiterRan = false ∧
    (handleRequest sec lim env fs db now body remoteAddr tmpBase).validatorRan = false ∧
    (handleRequest sec lim env fs db now body remoteAddr tmpBase).handlerRan = false ∧
    (handleRequest sec lim env fs db now body remoteAddr tmpBase).lim = lim ∧
    (handleRequest sec lim env fs db now body remoteAddr tmpBase).fs = fs ∧
    (handleRequest sec lim env fs db now body remoteAddr tmpBase).db = db := by
  have hrej : ∃ d s2, beforeRequest sec now body
      = (some (makeResponseErr 401 "unauthorized"), d, s2) := by
    rcases h with rfl | ⟨data, rfl, hk⟩
    · exact ⟨[], sec, rfl⟩
    · unfold beforeRequest
      by_cases he : data.isEmpty
      · exact ⟨data, sec, by simp [he]⟩
      · simp only [he]
        cases hl : lookupField data "__key__" with
        | none => exact ⟨data, sec, rfl⟩
        | some v =>
            dsimp only
            rcases hk v hl with hf | hf
            · rw [if_neg (by simp [hf] : ¬ jTruthy v = true)]
              exact ⟨popField data "__key__", sec, rfl⟩
            · by_cases ht : jTruthy v
              · rw [if_pos ht]
                exact ⟨popField data "__key__", (validateKeyJ sec v now).2, by simp [hf]⟩
              · rw [if_neg ht]
                exact ⟨popField data "__key__", sec, rfl⟩
  obtain ⟨d, s2, hbr⟩ := hrej
  unfold handleRequest
  rw [hbr]
  exact ⟨rfl, rfl, rfl, rfl, rfl, rfl, rfl⟩

/-- A passing auth gate: pops the credential and proceeds. -/
theorem beforeRequest_pass (sec : SecurityState) (now : ℚ) (data : Body) (s : String)
    (hkey : lookupField data "__key__" = some (.str s))
    (hs : s ≠ "")
    (hvalid : (validateKey sec s now).1 = true) :
    beforeRequest sec now (some data)
      = (none, popField data "__key__", (validateKey sec s now).2) := by
  have hne : data.isEmpty = false := by
    cases data
    · simp [lookupField] at hkey
    · rfl
  unfold beforeRequest
  dsimp only
  rw [if_neg (by simp [hne] : ¬ List.isEmpty data = true), hkey]
  dsimp only
  dsimp only [validateKeyJ]
  rw [if_pos (by simp [jTruthy, hs] : jTruthy (JVal.str s) = true)]
  rw [show (validateKey sec s now) = (true, (validateKey sec s now).2) from by
    rw [← hvalid]]
  rfl

/-- C10: the gate pops `__key__` before the downstream middleware runs,
so the view stack observes the body without the credential; the full body
fails the (closed) schema while the popped body passes it. -/
theorem auth_gate_strips_credential (sec : SecurityState) (lim : RateMap)
    (env : ClassifyEnv) (fs : FS) (db : List ClsDoc) (now : ℚ) (data : Body)
    (remoteAddr tmpBase s : String)
    (hkey : lookupField data "__key__" = some (.str s))
    (hs : s ≠ "")
    (hvalid : (validateKey sec s now).1 = true)
    (hbytes : (lookupField data "bytes").isSome)
    (hct : (lookupField data "contentType").isSome)
    (hclosed : ∀ p ∈ data, p.1 = "bytes" ∨ p.1 = "contentType" ∨
        p.1 = "ratelimitKey" ∨ p.1 = "__key__") :
    (handleRequest sec lim env fs db now (some data) remoteAddr tmpBase).bodySeen
      = some (popField data "__key__") ∧
    schemaCheck NSFW_DETECTION_CLASSIFY data = false ∧
    schemaCheck NSFW_DETECTION_CLASSIFY (popField data "__key__") = true := by
  refine ⟨?_, ?_, ?_⟩
  · unfold handleRequest
    rw [beforeRequest_pass sec now data s hkey hs hvalid]
    dsimp only
    rcases hls : limitStep 2 lim (deriveLimitKey (popField data "__key__") remoteAddr) now
      with ⟨pass, lim'⟩
    dsimp only
    cases pass
    · rfl
    · rw [if_pos rfl]
      by_cases hsc : schemaCheck NSFW_DETECTION_CLASSIFY (popField data "__key__") = true
      · rw [if_pos hsc]
      · rw [if_neg hsc]
  · cases hsc : schemaCheck NSFW_DETECTION_CLASSIFY data
    · rfl
    · exfalso
      have hmem := lookupField_mem data "__key__" _ hkey
      rcases ((schemaCheck_nsfw_iff data).mp hsc).2.2 ("__key__", .str s) hmem with
        hbad | hbad | hbad <;> simp at hbad
  · refine (schemaCheck_nsfw_iff _).mpr ⟨?_, ?_, ?_⟩
    · rw [lookupField_popField_ne _ _ _ (by decide : "bytes" ≠ "__key__")]
      exact hbytes
    · rw [lookupField_popField_ne _ _ _ (by decide : "contentType" ≠ "__key__")]
      exact hct
    · intro p hp
      obtain ⟨hpd, hpk⟩ := mem_popField data "__key__" p hp
      rcases hclosed p hpd with hh | hh | hh | hh
      · exact Or.inl hh
      · exact Or.inr (Or.inl hh)
      · exact Or.inr (Or.inr hh)
      · exact absurd hh hpk

/-- C6 (amended): an authorized, not rate-limited request whose body
lacks the required `bytes` field — in particular any URL-variant body —
is answered by the schema validator's uniform
`400 "incorrectly structured data"`; no URL-specific message exists. -/
theorem url_variant_gets_schema_400 (sec : SecurityState) (lim : RateMap)
    (env : ClassifyEnv) (fs : FS) (db : List ClsDoc) (now : ℚ) (data : Body)
    (remoteAddr tmpBase s : String)
    (hkey : lookupField data "__key__" = some (.str s))
    (hs : s ≠ "")
    (hvalid : (validateKey sec s now).1 = true)
    (hnoprev : lookupReq lim (deriveLimitKey (popField data "__key__") remoteAddr) = none)
    (hnobytes : lookupField data "bytes" = none) :
    (handleRequest sec lim env fs db now (some data) remoteAddr tmpBase).response
      = .ok (makeResponseErr 400 "incorrectly structured data") := by
  unfold handleRequest
  rw [beforeRequest_pass sec now data s hkey hs hvalid]
  dsimp only
  have hpass : limitStep 2 lim (deriveLimitKey (popField data "__key__") remoteAddr) now
      = (true, setReq lim (deriveLimitKey (popField data "__key__") remoteAddr) now) := by
    unfold limitStep
    rw [hnoprev]
  rw [hpass]
  dsimp only
  have hsc : schemaCheck NSFW_DETECTION_CLASSIFY (popField data "__key__") = false := by
    cases hsc : schemaCheck NSFW_DETECTION_CLASSIFY (popField data "__key__")
    · rfl
    · exfalso
      have h1 := ((schemaCheck_nsfw_iff _).mp hsc).1
      rw [lookupField_popField_ne _ _ _ (by decide : "bytes" ≠ "__key__"),
        hnobytes] at h1
      simp at h1
  rw [if_pos (by simp : (true = true)), if_neg (by simp [hsc])]

/-- C3 (amended): of two requests with the same limiting key less than
`1/count` seconds apart, the later one never reaches the wrapped handler
(429); when the earlier one found no recorded timestamp for the key, it is
served, so exactly one of the two reaches the handler. -/
theorem rate_limiter_second_request_rejected (count : ℚ) (m : RateMap)
    (k : JVal) (t1 t2 : ℚ) (h0 : lookupReq m k = none) (ht1 : t1 ≠ 0)
    (hlt : t2 - t1 < 1 / count) :
    (limitStep count m k t1).1 = true ∧
    (limitStep count (limitStep count m k t1).2 k t2).1 = false := by
  have h1 : limitStep count m k t1 = (true, setReq m k t1) := by
    unfold limitStep
    rw [h0]
  refine ⟨by rw [h1], ?_⟩
  rw [h1]
  have h2 : lookupReq (setReq m k t1) k = some t1 := by
    simp [lookupReq, setReq, List.find?]
  unfold limitStep
  rw [h2]
  dsimp only
  rw [if_pos ⟨ht1, hlt⟩]

theorem hasActiveKey_setActiveTrueFirst (db : List KeyRecord) (j k : String)
    (h : hasActiveKey db k = true) :
    hasActiveKey (setActiveTrueFirst db j) k = true := by
  induction db with
  | nil => simp [hasActiveKey] at h
  | cons r rs ih =>
      simp only [hasActiveKey, List.any_cons, Bool.or_eq_true] at h
      by_cases hj : r.key == j
      · simp only [setActiveTrueFirst, hj, if_pos]
        rcases h with h | h
        · simp only [Bool.and_eq_true] at h
          simp [hasActiveKey, h.1]
        · simp [hasActiveKey, h]
      · simp only [setActiveTrueFirst, hj]
        rcases h with h | h
        · simp [hasActiveKey, h]
        · have := ih (by simpa [hasActiveKey] using h)
          simp [hasActiveKey] at this ⊢
          exact Or.inr this

theorem hasActiveKey_generate (db : List KeyRecord) (k : String) (t : ℚ) :
    hasActiveKey (db ++ [⟨k, true, t⟩]) k = true := by
  simp [hasActiveKey]

theorem hasActiveKey_mono (db : List KeyRecord) (k k2 : String) (t : ℚ)
    (h : hasActiveKey db k = true) :
    hasActiveKey (db ++ [⟨k2, true, t⟩]) k = true := by
  simp [hasActiveKey] at h ⊢
  exact Or.inl h

theorem keyCached_of_refresh (db : List KeyRecord) (k : String)
    (h : hasActiveKey db k = true) :
    (db.filter (·.active)).any (fun r => r.key == k) = true := by
  simp only [hasActiveKey, List.any_eq_true, Bool.and_eq_true] at h
  obtain ⟨r, hr, hk, ha⟩ := h
  simp only [List.any_eq_true]
  exact ⟨r, List.mem_filter.mpr ⟨hr, ha⟩, hk⟩

theorem secInv_step (g : ℚ) (k : String) (s : SecurityState)
    (e : SecEvent × ℚ) (h : SecInv g k s) : SecInv g k (secStep s e) := by
  obtain ⟨hdb, hcache⟩ := h
  rcases e with ⟨ev, t⟩
  cases ev with
  | gen k2 =>
      exact ⟨hasActiveKey_mono s.db k k2 t hdb, by
        intro L hL hg
        exact hcache L hL hg⟩
  | revoke k2 =>
      simp only [secStep]
      cases hr : revokeKey s k2 with
      | error e => exact ⟨hdb, hcache⟩
      | ok s' =>
          unfold revokeKey at hr
          by_cases hc : s.db.countP (fun r => r.key == k2 && r.active) = 0
          · rw [if_pos hc] at hr; simp at hr
          · rw [if_neg hc] at hr
            simp only [Except.ok.injEq] at hr
            subst hr
            exact ⟨hasActiveKey_setActiveTrueFirst s.db k2 k hdb, hcache⟩
  | validate k2 =>
      simp only [secStep, validateKey]
      unfold refreshKeys
      cases hL : s.lastRefresh with
      | none =>
          refine ⟨hdb, ?_⟩
          intro L _ _
          simpa [keyCached] using keyCached_of_refresh s.db k hdb
      | some last =>
          dsimp only
          by_cases hc : ¬ (t - last ≥ s.refreshRate)
          · rw [if_pos hc]
            exact ⟨hdb, hcache⟩
          · rw [if_neg hc]
            refine ⟨hdb, ?_⟩
            intro L _ _
            simpa [keyCached] using keyCached_of_refresh s.db k hdb

theorem secInv_run (g : ℚ) (k : String) (s : SecurityState)
    (evs : List (SecEvent × ℚ)) (h : SecInv g k s) :
    SecInv g k (secRun s evs) := by
  induction evs generalizing s with
  | nil => exact h
  | cons e rest ih => exact ih (secStep s e) (secInv_step g k s e h)

theorem refreshLE_step (s : SecurityState) (e : SecEvent × ℚ) (b : ℚ)
    (he : e.2 ≤ b) (h : refreshLE s b) : refreshLE (secStep s e) b := by
  rcases e with ⟨ev, t⟩
  cases ev with
  | gen k2 => exact h
  | revoke k2 =>
      simp only [secStep]
      cases hr : revokeKey s k2 with
      | error e2 => exact h
      | ok s' =>
          unfold revokeKey at hr
          by_cases hc : s.db.countP (fun r => r.key == k2 && r.active) = 0
          · rw [if_pos hc] at hr; simp at hr
          · rw [if_neg hc] at hr
            simp only [Except.ok.injEq] at hr
            subst hr
            exact h
  | validate k2 =>
      simp only [secStep, validateKey]
      unfold refreshKeys
      cases hL : s.lastRefresh with
      | none =>
          intro L hL2
          simp at hL2
          rw [← hL2]
          exact he
      | some last =>
          dsimp only
          by_cases hc : ¬ (t - last ≥ s.refreshRate)
          · rw [if_pos hc]
            exact h
          · rw [if_neg hc]
            intro L hL2
            simp at hL2
            rw [← hL2]
            exact he

theorem refreshLE_run (s : SecurityState) (evs : List (SecEvent × ℚ)) (b : ℚ)
    (he : ∀ p ∈ evs, p.2 ≤ b) (h : refreshLE s b) :
    refreshLE (secRun s evs) b := by
  induction evs generalizing s with
  | nil => exact h
  | cons e rest ih =>
      exact ih (secStep s e) (fun p hp => he p (List.mem_cons_of_mem e hp))
        (refreshLE_step s e b (he e (List.mem_cons_self e rest)) h)

theorem secStep_refreshRate (s : SecurityState) (e : SecEvent × ℚ) :
    (secStep s e).refreshRate = s.refreshRate := by
  rcases e with ⟨ev, t⟩
  cases ev with
  | gen k2 => rfl
  | revoke k2 =>
      simp only [secStep]
      cases hr : revokeKey s k2 with
      | error e2 => rfl
      | ok s' =>
          unfold revokeKey at hr
          by_cases hc : s.db.countP (fun r => r.key == k2 && r.active) = 0
          · rw [if_pos hc] at hr; simp at hr
          · rw [if_neg hc] at hr
            simp only [Except.ok.injEq] at hr
            subst hr
            rfl
  | validate k2 =>
      simp only [secStep, validateKey]
      unfold refreshKeys
      cases hL : s.lastRefresh with
      | none => rfl
      | some last =>
          dsimp only
          by_cases hc : ¬ (t - last ≥ s.refreshRate)
          · rw [if_pos hc]
          · rw [if_neg hc]

theorem secRun_refreshRate (s : SecurityState) (evs : List (SecEvent × ℚ)) :
    (secRun s evs).refreshRate = s.refreshRate := by
  induction evs generalizing s with
  | nil => rfl
  | cons e rest ih => rw [secRun, List.foldl_cons, ← secRun, ih, secStep_refreshRate]

/-- C7: a key inserted by `generateKey` at time `g` is accepted by every
`validateKey` call made at least `refreshRate` seconds later, whatever other
requests (none revoking it) ran in between, and with no forced refresh. -/
theorem generated_key_validates_after_interval (db0 : List KeyRecord)
    (rate : ℚ) (pre mid : List (SecEvent × ℚ)) (k : String) (g t : ℚ)
    (hpre : ∀ p ∈ pre, p.2 ≤ g)
    (_hmid : ∀ p ∈ mid, p.1 ≠ SecEvent.revoke k)
    (ht : g + rate ≤ t) :
    (validateKey
        (secRun (initSecurity db0 rate) (pre ++ (SecEvent.gen k, g) :: mid))
          k t).1 = true := by
  have hsplit : secRun (initSecurity db0 rate) (pre ++ (SecEvent.gen k, g) :: mid)
      = secRun (secStep (secRun (initSecurity db0 rate) pre) (SecEvent.gen k, g)) mid := by
    simp [secRun, List.foldl_append]
  rw [hsplit]
  set s1 := secRun (initSecurity db0 rate) pre with hs1
  have hLE1 : refreshLE s1 g := by
    refine refreshLE_run _ pre g hpre ?_
    intro L hL
    simp [initSecurity] at hL
  have hInv2 : SecInv g k (secStep s1 (SecEvent.gen k, g)) := by
    constructor
    · exact hasActiveKey_generate s1.db k g
    · intro L hL hg
      exact absurd (hLE1 L hL) (not_le.mpr hg)
  set s3 := secRun (secStep s1 (SecEvent.gen k, g)) mid with hs3
  have hInv3 : SecInv g k s3 := secInv_run g k _ mid hInv2
  have hrate : s3.refreshRate = rate := by
    rw [hs3, secRun_refreshRate, secStep_refreshRate, hs1, secRun_refreshRate]
    rfl
  obtain ⟨hact, hcache⟩ := hInv3
  simp only [validateKey]
  unfold refreshKeys
  cases hL : s3.lastRefresh with
  | none =>
      simpa using keyCached_of_refresh s3.db k hact
  | some last =>
      dsimp only
      by_cases hc : ¬ (t - last ≥ s3.refreshRate)
      · rw [if_pos hc]
        have hgl : g < last := by
          rw [hrate] at hc
          have := not_le.mp (fun hcc => hc hcc)
          linarith
        exact hcache last hL hgl
      · rw [if_neg hc]
        simpa using keyCached_of_refresh s3.db k hact

/-- C8 (amended): the loop coerces every entry when all values are
float-coercible, and raises (surfacing as the view's 500 response) as soon
as one is not — no entry is discarded. -/
theorem normalizePreds_coerces_all_or_raises (ps : VidPreds) :
    (ps.all entryCoercible = true →
      normalizePreds ps = .ok (normalizePredsSpec ps)) ∧
    (ps.all entryCoercible = false → ∃ m, normalizePreds ps = .error m) := by
  induction ps with
  | nil => exact ⟨fun _ => rfl, fun h => by simp [List.all_nil] at h⟩
  | cons e rest ih =>
      obtain ⟨k, sv, uv⟩ := e
      cases sv with
      | nonCoercible m =>
          refine ⟨fun h => ?_, fun _ => ⟨m, rfl⟩⟩
          simp [List.all_cons, entryCoercible] at h
      | coercible q =>
          cases uv with
          | nonCoercible m =>
              refine ⟨fun h => ?_, fun _ => ⟨m, rfl⟩⟩
              simp [List.all_cons, entryCoercible] at h
          | coercible q2 =>
              constructor
              · intro h
                simp only [List.all_cons, entryCoercible, Bool.true_and] at h
                have hr := ih.1 h
                simp only [normalizePreds, pyFloat, hr, normalizePredsSpec]
                rfl
              · intro h
                simp only [List.all_cons, entryCoercible, Bool.true_and] at h
                obtain ⟨m, hm⟩ := ih.2 h
                refine ⟨m, ?_⟩
                simp only [normalizePreds, pyFloat, hm]
                rfl

theorem find?_hash_self (db : List ClsDoc) (doc : ClsDoc) (hsh : String)
    (hmiss : db.find? (fun d => d.hash == hsh) = none) (hd : doc.hash = hsh) :
    (db ++ [doc]).find? (fun d => d.hash == hsh) = some doc := by
  induction db with
  | nil => simp [List.find?, hd]
  | cons a tl ih =>
      simp only [List.find?_cons] at hmiss ⊢
      cases h : (a.hash == hsh) with
      | true => rw [h] at hmiss; simp at hmiss
      | false =>
          rw [h] at hmiss
          simp only [List.cons_append, List.find?_cons, h]
          exact ih hmiss

theorem hashAndClassify_ok_200 (env : ClassifyEnv) (db : List ClsDoc)
    (isVid : Bool) (ct : String) (content : MBytes) (origPath : String)
    (resp : Response) (db' : List ClsDoc) (called : Bool)
    (h : hashAndClassify env db isVid ct content origPath = .ok (resp, db', called))
    (h200 : resp.status = 200) :
    ∃ hsh d, (if isVid then env.videoHash content else env.imageHash content) = .ok hsh ∧
      resp = makeResponseData d ∧ d.hash = hsh ∧
      db'.find? (fun x => x.hash == hsh) = some d := by
  unfold hashAndClassify at h
  cases hh : (if isVid then env.videoHash content else env.imageHash content) with
  | error e => rw [hh] at h; simp at h
  | ok hsh =>
      rw [hh] at h
      dsimp only at h
      cases hf : db.find? (fun d => d.hash == hsh) with
      | some stored =>
          rw [hf] at h
          dsimp only at h
          simp only [Except.ok.injEq, Prod.mk.injEq] at h
          obtain ⟨h1, h2, _⟩ := h
          refine ⟨hsh, stored, rfl, h1.symm, ?_, h2 ▸ hf⟩
          have := List.find?_some hf
          simpa using this.symm
      | none =>
          rw [hf] at h
          dsimp only at h
          cases hc : (if isVid then env.classifyVid content else env.classifyImg content) with
          | error e =>
              rw [hc] at h
              dsimp only at h
              simp only [Except.ok.injEq, Prod.mk.injEq] at h
              rw [← h.1] at h200; simp [makeResponseErr] at h200
          | ok res =>
              rw [hc] at h
              dsimp only at h
              by_cases hv : startsWithS ct "video/" = true
              · rw [if_pos hv] at h
                cases res with
                | img raw =>
                    dsimp only at h
                    simp only [Except.ok.injEq, Prod.mk.injEq] at h
                    rw [← h.1] at h200; simp [makeResponseErr] at h200
                | vid ps =>
                    dsimp only at h
                    cases hn : normalizePreds ps with
                    | error e =>
                        rw [hn] at h
                        dsimp only at h
                        simp only [Except.ok.injEq, Prod.mk.injEq] at h
                        rw [← h.1] at h200; simp [makeResponseErr] at h200
                    | ok nps =>
                        rw [hn] at h
                        dsimp only at h
                        simp only [Except.ok.injEq, Prod.mk.injEq] at h
                        obtain ⟨h1, h2, _⟩ := h
                        refine ⟨hsh, ⟨.vidNorm nps, origPath, ct, hsh⟩, rfl, h1.symm, rfl, ?_⟩
                        rw [← h2]
                        exact find?_hash_self db _ hsh hf rfl
              · rw [if_neg hv] at h
                simp only [Except.ok.injEq, Prod.mk.injEq] at h
                obtain ⟨h1, h2, _⟩ := h
                refine ⟨hsh, ⟨.raw res, origPath, ct, hsh⟩, rfl, h1.symm, rfl, ?_⟩
                rw [← h2]
                exact find?_hash_self db _ hsh hf rfl

theorem hashAndClassify_hit (env : ClassifyEnv) (db : List ClsDoc)
    (isVid : Bool) (ct : String) (content : MBytes) (origPath : String)
    (hsh : String) (d : ClsDoc)
    (hh : (if isVid then env.videoHash content else env.imageHash content) = .ok hsh)
    (hf : db.find? (fun x => x.hash == hsh) = some d) :
    hashAndClassify env db isVid ct content origPath
      = .ok (makeResponseData d, db, false) := by
  unfold hashAndClassify
  rw [hh]
  dsimp only
  rw [hf]


/-- Staging outcomes are determined by the request content: the disk state
and temporary names do not influence the staged bytes, the `method` flag,
the content type, or a transcode failure. -/
theorem stage_determined (env : ClassifyEnv) (fs fs' : FS)
    (bs ct tmp tmp' : String) :
    (∃ e fl fl', stage env fs bs ct tmp = .error (e, fl) ∧
        stage env fs' bs ct tmp' = .error (e, fl')) ∨
    (∃ st st', stage env fs bs ct tmp = .ok st ∧ stage env fs' bs ct tmp' = .ok st' ∧
        st'.content = st.content ∧ st'.isVid = st.isVid ∧ st'.ct = st.ct) := by
  unfold stage
  by_cases hgif : suffixFor ct = some ".gif"
  · rw [if_pos hgif, if_pos hgif]
    cases htr : env.transcode (env.b64decode bs) with
    | error e => exact Or.inl ⟨e, _, _, rfl, rfl⟩
    | ok out => exact Or.inr ⟨_, _, rfl, rfl, rfl, rfl, rfl⟩
  · rw [if_neg hgif, if_neg hgif]
    exact Or.inr ⟨_, _, rfl, rfl, rfl, rfl, rfl⟩

/-- C4: after a successful classify request, re-submitting the same
media bytes and content type (over the resulting cache, any disk state and
any fresh temporary name) yields a 200 response whose document carries the
same hash, served from the result cache without invoking the classifier. -/
theorem classify_repeat_served_from_cache (env : ClassifyEnv) (fs0 fs1 : FS)
    (db0 : List ClsDoc) (bs ct tmp1 tmp2 : String) (r1 : Response)
    (h1 : (classifyRun env fs0 db0 bs ct tmp1).outcome = .ok r1)
    (h200 : r1.status = 200) :
    ∃ d1 d2 : ClsDoc, r1.data = some d1 ∧
      (classifyRun env fs1 (classifyRun env fs0 db0 bs ct tmp1).db bs ct tmp2).outcome
        = .ok (makeResponseData d2) ∧
      d2.hash = d1.hash ∧
      (classifyRun env fs1 (classifyRun env fs0 db0 bs ct tmp1).db bs ct tmp2).classifierCalled
        = false := by
  rcases stage_determined env fs0 fs1 bs ct tmp1 tmp2 with
    ⟨e, fl, fl', hs1, hs2⟩ | ⟨st, st', hs1, hs2, hco, hvi, hct⟩
  · rw [show classifyRun env fs0 db0 bs ct tmp1 = ⟨.error e, fl, db0, false⟩ from by
      unfold classifyRun; rw [hs1]] at h1
    simp at h1
  · unfold classifyRun at h1
    rw [hs1] at h1
    dsimp only at h1
    cases hac : hashAndClassify env db0 st.isVid st.ct st.content st.origPath with
    | error e => rw [hac] at h1; simp at h1
    | ok trip =>
        obtain ⟨resp, db', called⟩ := trip
        rw [hac] at h1
        dsimp only at h1
        simp only [Except.ok.injEq] at h1
        subst h1
        obtain ⟨hsh, d, hh, hresp, hdh, hfind⟩ :=
          hashAndClassify_ok_200 env db0 st.isVid st.ct st.content st.origPath
            resp db' called hac h200
        have hdb : (classifyRun env fs0 db0 bs ct tmp1).db = db' := by
          unfold classifyRun; rw [hs1]; dsimp only; rw [hac]
        have hh' : (if st'.isVid then env.videoHash st'.content
            else env.imageHash st'.content) = .ok hsh := by
          rw [hco, hvi]; exact hh
        have hrun2 : classifyRun env fs1 db' bs ct tmp2
            = ⟨.ok (makeResponseData d), unlinkAll st'.fs st'.toDelete, db', false⟩ := by
          unfold classifyRun
          rw [hs2]
          dsimp only
          rw [hashAndClassify_hit env db' st'.isVid st'.ct st'.content st'.origPath hsh d hh' hfind]
        refine ⟨d, d, ?_, ?_, rfl, ?_⟩
        · rw [hresp]; rfl
        · rw [hdb, hrun2]
        · rw [hdb, hrun2]

/-- C1: a GIF request whose video hash raises escapes the view with the
exception while both the staged GIF and the transcoded MP4 stay on disk. -/
theorem classify_hash_failure_leaks_staged_files :
    (classifyRun gifHashFailEnv [] [] "Zw==" "image/gif" "/tmp/up0").outcome
      = .error "cannot hash" ∧
    fsExists (classifyRun gifHashFailEnv [] [] "Zw==" "image/gif" "/tmp/up0").fs
      "/tmp/up0.gif" = true ∧
    fsExists (classifyRun gifHashFailEnv [] [] "Zw==" "image/gif" "/tmp/up0").fs
      ".tmp/up0.mp4" = true :=
  ⟨rfl, rfl, rfl⟩

/-- C2: revoking an active key leaves it active (the update writes
`active: True`), so a later `validateKey` — here after a cache refresh —
still returns `True`. -/
theorem revoked_key_still_validates :
    (revokeKey (generateKey (initSecurity [] 5) "K" 0) "K").map
      (fun s => (validateKey s "K" 10).1) = .ok true := rfl

/-- C3 counterexample: three requests with one key, each pair closer than
the `1/2` second window of `limit(2, ...)`: the second and third are both
rejected, so of that pair neither reaches the handler. -/
theorem rate_limiter_burst_rejects_both :
    (limitRun 2 [] [(.str "u", 10), (.str "u", 41/4), (.str "u", 21/2)]).1
      = [true, false, false] ∧
    (21/2 : ℚ) - 41/4 < 1/2 := by
  refine ⟨?_, by norm_num⟩
  norm_num [limitRun, limitStep, lookupReq, setReq]

/-- C6 counterexample: an authorized URL-variant request gets the schema
validator's generic 400; its message contains neither "required" nor
"invalid url". -/
theorem url_request_no_required_message :
    (handleRequest (initSecurity [⟨"K", true, 0⟩] 5) [] trivialEnv [] [] 10
        (some [("__key__", JVal.str "K"), ("url", JVal.str "")])
        "1.2.3.4" "/tmp/t").response
      = .ok (makeResponseErr 400 "incorrectly structured data") ∧
    strContains "incorrectly structured data" "required" = false ∧
    strContains "incorrectly structured data" "invalid url" = false :=
  ⟨rfl, by decide, by decide⟩

/-- C8 counterexample: a non-float-coercible prediction value makes the
loop raise instead of being discarded with the rest kept. -/
theorem normalizePreds_error_not_discard :
    normalizePreds [(0, .coercible 1, .coercible 0),
        (1, .nonCoercible "could not convert string to float", .coercible 0)]
      = .error "could not convert string to float" ∧
    normalizePredsSpec [(0, .coercible 1, .coercible 0),
        (1, .nonCoercible "could not convert string to float", .coercible 0)]
      = [("0", 1, 0)] :=
  ⟨rfl, rfl⟩

/-- C9 counterexample: a body with all required fields but one extra,
undeclared field fails validation. -/
theorem schemaCheck_extra_field_counterexample :
    schemaCheck NSFW_DETECTION_CLASSIFY
      [("bytes", .str "aGk="), ("contentType", .str "image/png"),
       ("extra", .str "x")] = false := by decide

/-- C9: the validation acceptance condition in full. -/
theorem schemaCheck_requires_declared_fields_only (body : Body) :
    schemaCheck NSFW_DETECTION_CLASSIFY body = true ↔
      ((lookupField body "bytes").isSome ∧ (lookupField body "contentType").isSome ∧
       ∀ p ∈ body, p.1 = "bytes" ∨ p.1 = "contentType" ∨ p.1 = "ratelimitKey") :=
  schemaCheck_nsfw_iff body

/-! ### Witnesses instantiating the conditional theorems -/

theorem rate_limiter_second_request_rejected_witness :
    (limitStep 2 [] (JVal.str "u") 10).1 = true ∧
    (limitStep 2 (limitStep 2 [] (JVal.str "u") 10).2 (JVal.str "u") 10).1 = false :=
  rate_limiter_second_request_rejected 2 [] (JVal.str "u") 10 10 rfl
    (by norm_num) (by norm_num)

theorem classify_repeat_served_from_cache_witness :
    ∃ d1 d2 : ClsDoc,
      (makeResponseData ⟨.raw (.img "p"), "/tmp/a", "image/png", "h1"⟩).data = some d1 ∧
      (classifyRun demoEnv [] (classifyRun demoEnv [] [] "eA==" "image/png" "/tmp/a").db
          "eA==" "image/png" "/tmp/b").outcome = .ok (makeResponseData d2) ∧
      d2.hash = d1.hash ∧
      (classifyRun demoEnv [] (classifyRun demoEnv [] [] "eA==" "image/png" "/tmp/a").db
          "eA==" "image/png" "/tmp/b").classifierCalled = false :=
  classify_repeat_served_from_cache demoEnv [] [] [] "eA==" "image/png"
    "/tmp/a" "/tmp/b" (makeResponseData ⟨.raw (.img "p"), "/tmp/a", "image/png", "h1"⟩)
    rfl rfl

theorem auth_failure_short_circuits_witness :
    (handleRequest (initSecurity [] 5) [] trivialEnv [] [] 0
        (some [("bytes", JVal.str "x")]) "1.2.3.4" "/tmp/t").response
      = .ok (makeResponseErr 401 "unauthorized") ∧
    (handleRequest (initSecurity [] 5) [] trivialEnv [] [] 0
        (some [("bytes", JVal.str "x")]) "1.2.3.4" "/tmp/t").limiterRan = false ∧
    (handleRequest (initSecurity [] 5) [] trivialEnv [] [] 0
        (some [("bytes", JVal.str "x")]) "1.2.3.4" "/tmp/t").validatorRan = false ∧
    (handleRequest (initSecurity [] 5) [] trivialEnv [] [] 0
        (some [("bytes", JVal.str "x")]) "1.2.3.4" "/tmp/t").handlerRan = false ∧
    (handleRequest (initSecurity [] 5) [] trivialEnv [] [] 0
        (some [("bytes", JVal.str "x")]) "1.2.3.4" "/tmp/t").lim = [] ∧
    (handleRequest (initSecurity [] 5) [] trivialEnv [] [] 0
        (some [("bytes", JVal.str "x")]) "1.2.3.4" "/tmp/t").fs = [] ∧
    (handleRequest (initSecurity [] 5) [] trivialEnv [] [] 0
        (some [("bytes", JVal.str "x")]) "1.2.3.4" "/tmp/t").db = [] :=
  auth_failure_short_circuits (initSecurity [] 5) [] trivialEnv [] [] 0
    (some [("bytes", JVal.str "x")]) "1.2.3.4" "/tmp/t"
    (Or.inr ⟨[("bytes", JVal.str "x")], rfl,
      fun v hv => by simp [lookupField, List.find?] at hv⟩)

theorem url_variant_gets_schema_400_witness :
    (handleRequest (initSecurity [⟨"K", true, 0⟩] 5) [] trivialEnv [] [] 10
        (some [("__key__", JVal.str "K"), ("url", JVal.str "")])
        "1.2.3.4" "/tmp/t").response
      = .ok (makeResponseErr 400 "incorrectly structured data") :=
  url_variant_gets_schema_400 (initSecurity [⟨"K", true, 0⟩] 5) [] trivialEnv [] [] 10
    [("__key__", JVal.str "K"), ("url", JVal.str "")] "1.2.3.4" "/tmp/t" "K"
    rfl (by decide) rfl rfl rfl

theorem generated_key_validates_after_interval_witness :
    (validateKey (secRun (initSecurity [] 5) ([] ++ (SecEvent.gen "K", 0) :: []))
        "K" 5).1 = true :=
  generated_key_validates_after_interval [] 5 [] [] "K" 0 5
    (fun p hp => absurd hp (List.not_mem_nil p))
    (fun p hp => absurd hp (List.not_mem_nil p))
    (by norm_num)

theorem auth_gate_strips_credential_witness :
    (handleRequest (initSecurity [⟨"K", true, 0⟩] 5) [] trivialEnv [] [] 0
        (some [("__key__", JVal.str "K"), ("bytes", JVal.str "b"),
          ("contentType", JVal.str "image/png")]) "1.2.3.4" "/tmp/t").bodySeen
      = some (popField [("__key__", JVal.str "K"), ("bytes", JVal.str "b"),
          ("contentType", JVal.str "image/png")] "__key__") ∧
    schemaCheck NSFW_DETECTION_CLASSIFY
      [("__key__", JVal.str "K"), ("bytes", JVal.str "b"),
       ("contentType", JVal.str "image/png")] = false ∧
    schemaCheck NSFW_DETECTION_CLASSIFY
      (popField [("__key__", JVal.str "K"), ("bytes", JVal.str "b"),
        ("contentType", JVal.str "image/png")] "__key__") = true :=
  auth_gate_strips_credential (initSecurity [⟨"K", true, 0⟩] 5) [] trivialEnv [] [] 0
    [("__key__", JVal.str "K"), ("bytes", JVal.str "b"),
     ("contentType", JVal.str "image/png")] "1.2.3.4" "/tmp/t" "K"
    rfl (by decide) rfl (by decide) (by decide) (by decide)

end JarvisMLKit
